import Mathlib

/-!
Verification development for the cryptocompare historical price resolution
engine (rotkehlchen/externalapis/cryptocompare.py).

The Python code is shallowly embedded: prices (FVal, arbitrary-precision
decimals) become rationals, unix timestamps become integers, raw remote
response entries (Python dicts) become structures whose quote fields are
Option-valued so that a missing dictionary key (Python KeyError) is
representable, and fallible code returns Option or an explicit outcome type.
-/

namespace Cryptocompare

/-- A raw histohour point as returned by the remote API, i.e. one of the
dict entries of a histohour response Data array.  The quote fields
(high, low, open, close) are Option-valued: none models a missing
dictionary key, whose access in Python raises KeyError.  The field
openPrice embeds the dict key "open" (a Lean keyword). -/
structure CCHistEntry where
  time : Int
  high : Option ℚ
  low : Option ℚ
  openPrice : Option ℚ
  close : Option ℚ
  volumefrom : ℚ
  volumeto : ℚ
  conversionType : String
  conversionSymbol : String
deriving DecidableEq

/-- Embeds the PriceHistoryEntry NamedTuple: time, low, high. -/
structure PriceHistoryEntry where
  time : Int
  low : ℚ
  high : ℚ
deriving DecidableEq

/-- Embeds the PriceHistoryData NamedTuple: data, start_time, end_time. -/
structure PriceHistoryData where
  data : List PriceHistoryEntry
  start_time : Int
  end_time : Int
deriving DecidableEq

/-- Embeds _dict_history_to_entries: converts each raw dict entry to a
PriceHistoryEntry reading the keys time, low and high.  A missing low or
high key (Python KeyError inside FVal(entry[...])) yields none. -/
def dictHistoryToEntries (data : List CCHistEntry) : Option (List PriceHistoryEntry) :=
  data.mapM (fun entry => do
    pure { time := entry.time, low := (← entry.low), high := (← entry.high) })

/-- The on-disk cache document for an asset pair, holding the raw entries
plus the validity window, as written by write_history_data_in_file. -/
structure PriceHistoryDoc where
  data : List CCHistEntry
  start_time : Int
  end_time : Int
deriving DecidableEq

/-- Embeds _dict_history_to_data: turns a history document into a
PriceHistoryData object. -/
def dictHistoryToData (doc : PriceHistoryDoc) : Option PriceHistoryData := do
  pure { data := (← dictHistoryToEntries doc.data),
         start_time := doc.start_time,
         end_time := doc.end_time }

/-- Modelled from the spec: write_history_data_in_file
(rotkehlchen/utils/misc.py, not under src/) persists, for an asset pair,
a document containing the entries list plus the start_ts and end_ts it is
given: per section 6 of the spec, a document of the shape
entries / start_time / end_time. -/
def writeHistoryDataInFile (data : List CCHistEntry) (startTs endTs : Int) :
    PriceHistoryDoc :=
  { data := data, start_time := startTs, end_time := endTs }

/-- Embeds the pairwise helper: s maps to (s0, s1), (s2, s3), (s4, s5), ...
NON-overlapping adjacent pairs, exactly as zip(a, a) over a single
iterator behaves. -/
def pairwiseList {α : Type} : List α → List (α × α)
  | a :: b :: rest => (a, b) :: pairwiseList rest
  | _ => []

/-- Loop body of _check_hourly_data_sanity: walks the pairwise pairs
keeping a running index that increases by 2 per pair; on the first pair
whose time difference is not 3600 it reports (index, index + 1, diff),
embedding the RemoteError raised there; none means the check passes. -/
def checkHourlyDataSanityLoop :
    Nat → List (CCHistEntry × CCHistEntry) → Option (Nat × Nat × Int)
  | _, [] => none
  | index, (n1, n2) :: rest =>
    let diff := n2.time - n1.time
    if diff ≠ 3600 then some (index, index + 1, diff)
    else checkHourlyDataSanityLoop (index + 2) rest

/-- Embeds _check_hourly_data_sanity: returns none when no RemoteError is
raised, and some (i, i + 1, diff) for the RemoteError naming indices i and
i + 1 and the offending time difference. -/
def checkHourlyDataSanity (data : List CCHistEntry) : Option (Nat × Nat × Int) :=
  checkHourlyDataSanityLoop 0 (pairwiseList data)

/-- Spec-side definition (written from the spec words, for comparison with
the source function): every pair of ADJACENT entries of the series has
time difference exactly 3600 seconds. -/
def specAllAdjacentHourly (data : List CCHistEntry) : Bool :=
  (data.zip data.tail).all (fun p => p.2.time - p.1.time == 3600)

/-- A concrete raw histohour entry used for building test series; only the
time field varies. -/
def mkCCHistEntry (t : Int) : CCHistEntry :=
  { time := t, high := some 2, low := some 1, openPrice := some 1,
    close := some 2, volumefrom := 0, volumeto := 0,
    conversionType := "direct", conversionSymbol := "" }

/-- Outcome of the direct-series lookup step of query_historical_price
(the part between obtaining the series and the fallback logic):
crash embeds an unhandled IndexError, fallback means the price stayed
zero so the resolver proceeds to the BTC-bridge or daily fallback, and
price p means a direct price p was produced from the series. -/
inductive LookupOutcome
  | crash
  | fallback
  | price (p : ℚ)
deriving DecidableEq

/-- Embeds the in-bounds part of the lookup in query_historical_price:
computes diff for data[index] (IndexError, i.e. crash, if out of bounds),
moves to index + 1 when that neighbour exists and is strictly closer to
the queried timestamp, then returns the midpoint of high and low of the
selected entry.  The source guards on high and low being not None, which
always holds for entries built by _dict_history_to_entries. -/
def lookupInBounds (data : List PriceHistoryEntry) (timestamp : Int)
    (index : Nat) : LookupOutcome :=
  match data.get? index with
  | none => .crash
  | some e =>
    let diff := |e.time - timestamp|
    let index2 :=
      if (index : Int) + 1 ≤ (data.length : Int) - 1 then
        match data.get? (index + 1) with
        | none => index
        | some e1 => if |e1.time - timestamp| < diff then index + 1 else index
      else index
    match data.get? index2 with
    | none => .crash
    | some ef => .price ((ef.high + ef.low) / 2)

/-- Embeds the nearest-timestamp lookup step of query_historical_price
over the series returned by get_historical_data.  The candidate index is
floor((timestamp - data[0].time) / 3600); convert_to_int with
accept_only_exact=False is modelled from the spec as floor (the
difference is nonnegative here).  An empty series crashes at the
unguarded data[0] access.  Mirrors the source exactly: when the index is
out of bounds it is decremented once only if it exceeds len(data), and
otherwise the lookup gives up and falls back. -/
def queryHistoricalPriceLookup (data : List PriceHistoryEntry)
    (timestamp : Int) : LookupOutcome :=
  match data.head? with
  | none => .crash
  | some e0 =>
    if e0.time ≤ timestamp then
      let index := ((timestamp - e0.time) / 3600).toNat
      if (index : Int) > (data.length : Int) - 1 then
        if (index : Int) > (data.length : Int) then
          lookupInBounds data timestamp (index - 1)
        else
          .fallback
      else
        lookupInBounds data timestamp index
    else
      .fallback

/-- A four-entry series whose only continuity violation sits between
indices 1 and 2: times 0, 3600, 100000, 103600. -/
def gappedSeries : List CCHistEntry :=
  [mkCCHistEntry 0, mkCCHistEntry 3600, mkCCHistEntry 100000, mkCCHistEntry 103600]

/-- C1: the hourly-continuity sanity check iterates NON-overlapping pairs
(pairwise yields (s0, s1), (s2, s3), ...), so a series whose only gap sits
between an odd and the following even index passes the check even though
an adjacent pair violates the 3600-second invariant: the check raises no
error on gappedSeries although the invariant fails there, contradicting
the docstring of _check_hourly_data_sanity. -/
theorem C1_sanity_check_passes_gapped_series :
    checkHourlyDataSanity gappedSeries = none ∧
    specAllAdjacentHourly gappedSeries = false := by
  decide

/-- A two-entry hourly price series at times 0 and 3600. -/
def twoEntrySeries : List PriceHistoryEntry :=
  [{ time := 0, low := 1, high := 2 }, { time := 3600, low := 1, high := 2 }]

/-- C5: on a two-entry series, querying at timestamp 14400 gives candidate
index 4, which exceeds len(data) = 2, so the code decrements once to 3 and
then evaluates data[3].time, an unhandled IndexError (crash) instead of the
claimed fallback; and querying at timestamp 7200 gives candidate index 2,
equal to the series length, where the code gives up and falls back instead
of stepping back to the last entry as the claim states. -/
theorem C5_index_overflow_crashes_and_equal_length_falls_back :
    queryHistoricalPriceLookup twoEntrySeries 14400 = .crash ∧
    queryHistoricalPriceLookup twoEntrySeries 7200 = .fallback := by
  decide

/-- C10: the lookup step of query_historical_price evaluates data[0].time
without an emptiness guard, so an empty series from get_historical_data
produces an unhandled IndexError (crash), not a fallback and not a
NoPriceForGivenTimestamp. -/
theorem C10_empty_series_crashes_lookup :
    ∀ timestamp : Int, queryHistoricalPriceLookup [] timestamp = .crash := by
  intro timestamp
  rfl

/-- C6: whenever the candidate index (floor of the hour offset from the
first entry) and its successor are both in bounds, the lookup returns the
midpoint of high and low of whichever of the two entries lies strictly
closer to the queried timestamp, the candidate itself on a tie. -/
theorem C6_nearest_entry_selection (data : List PriceHistoryEntry)
    (timestamp : Int) (e0 ei ei1 : PriceHistoryEntry)
    (h0 : data.head? = some e0) (hts : e0.time ≤ timestamp)
    (hi : data.get? (((timestamp - e0.time) / 3600).toNat) = some ei)
    (hi1 : data.get? (((timestamp - e0.time) / 3600).toNat + 1) = some ei1) :
    queryHistoricalPriceLookup data timestamp =
      .price (if |ei1.time - timestamp| < |ei.time - timestamp|
              then (ei1.high + ei1.low) / 2
              else (ei.high + ei.low) / 2) := by
  have hlt1 : ((timestamp - e0.time) / 3600).toNat + 1 < data.length :=
    List.get?_eq_some.mp hi1 |>.choose
  have hlt : ((timestamp - e0.time) / 3600).toNat < data.length :=
    Nat.lt_of_succ_lt hlt1
  have hnotgt : ¬ ((((timestamp - e0.time) / 3600).toNat : Int) >
      (data.length : Int) - 1) := by
    omega
  have hle : ((((timestamp - e0.time) / 3600).toNat : Int) + 1 ≤
      (data.length : Int) - 1) := by omega
  unfold queryHistoricalPriceLookup lookupInBounds
  rw [h0]
  dsimp only
  rw [if_pos hts, if_neg hnotgt, hi]
  dsimp only
  rw [if_pos hle, hi1]
  by_cases hcmp : |ei1.time - timestamp| < |ei.time - timestamp|
  · simp only [if_pos hcmp, hi1]
  · simp only [if_neg hcmp, hi]

/-- Witness for C6 at the claim's concrete instance: entries at times
T, T + 3600, T + 7200 with T = 0 and query timestamp 3601 select the
entry at time 3600. -/
theorem C6_nearest_entry_selection_witness :
    queryHistoricalPriceLookup
      [{ time := 0, low := 1, high := 2 },
       { time := 3600, low := 3, high := 5 },
       { time := 7200, low := 1, high := 2 }] 3601 =
      .price (if |(7200 : Int) - 3601| < |(3600 : Int) - 3601|
              then ((2 : ℚ) + 1) / 2 else ((5 : ℚ) + 3) / 2) := by
  have h := C6_nearest_entry_selection
    [{ time := 0, low := 1, high := 2 },
     { time := 3600, low := 3, high := 5 },
     { time := 7200, low := 1, high := 2 }] 3601
    { time := 0, low := 1, high := 2 }
    { time := 3600, low := 3, high := 5 }
    { time := 7200, low := 1, high := 2 }
    (by decide) (by decide) (by decide) (by decide)
  exact h

/-- The rate-limit message constant RATE_LIMIT_MSG. -/
def rateLimitMsg : String :=
  "You are over your rate limit please upgrade your account!"

/-- The retry bound CRYPTOCOMPARE_QUERY_RETRY_TIMES. -/
def cryptocompareQueryRetryTimes : Nat := 10

/-- A parsed cryptocompare JSON payload, restricted to the keys _api_query
reads: Message, Response and Data. -/
structure ApiPayload where
  message : Option String
  response : Option String
  dataField : Option String
deriving DecidableEq

/-- Result of _api_query: the Data field when present, the whole payload
otherwise, or the RemoteError raised for an explicit non-success status
(carrying the server-supplied Message). -/
inductive ApiResult
  | dataValue (d : String)
  | wholePayload (p : ApiPayload)
  | remoteError (serverMessage : Option String)
deriving DecidableEq

/-- Embeds the tail of one _api_query iteration once the rate-limit retry
branch was not taken: raise RemoteError when the Response key (defaulting
to Success) is not Success, otherwise return Data if present else the
whole payload. -/
def apiQueryFinish (payload : ApiPayload) : ApiResult :=
  if payload.response.getD "Success" ≠ "Success" then
    .remoteError payload.message
  else
    match payload.dataField with
    | some d => .dataValue d
    | none => .wholePayload payload

/-- Embeds the retry loop of _api_query over an oracle giving the payload
of each attempt (attempt number = responses consumed so far).  The state
is the remaining tries counter (starting at CRYPTOCOMPARE_QUERY_RETRY_TIMES)
and the list of backoff sleeps performed so far; on a rate-limit message
with tries at least 1 the loop sleeps 20 / tries seconds (the recursion
carries tries = t + 1, so the sleep is 20 / (t + 1)), decrements and
retries; with tries = 0, and on any non-rate-limit payload, it falls
through to apiQueryFinish. -/
def apiQueryAux (responses : Nat → ApiPayload) :
    Nat → Nat → List ℚ → List ℚ × ApiResult
  | 0, attempt, sleeps => (sleeps, apiQueryFinish (responses attempt))
  | t + 1, attempt, sleeps =>
    let payload := responses attempt
    if payload.message = some rateLimitMsg then
      apiQueryAux responses t (attempt + 1) (sleeps ++ [20 / ((t : ℚ) + 1)])
    else
      (sleeps, apiQueryFinish payload)

/-- Embeds _api_query: runs the retry loop from the full retry budget and
returns the backoff sleeps performed together with the final result. -/
def apiQuery (responses : Nat → ApiPayload) : List ℚ × ApiResult :=
  apiQueryAux responses cryptocompareQueryRetryTimes 0 []

/-- An oracle whose every response carries the rate-limit message with an
error status and no Data. -/
def allRateLimited : Nat → ApiPayload :=
  fun _ => { message := some rateLimitMsg, response := some "Error",
             dataField := none }

/-- The list of backoff sleeps produced by running down a tries counter t
under permanent rate limiting: 20 / t, 20 / (t - 1), ..., 20 / 1. -/
def rateLimitBackoffs (t : Nat) : List ℚ :=
  ((List.range t).reverse).map (fun k => 20 / ((k : ℚ) + 1))

theorem rateLimitBackoffs_succ (t : Nat) :
    rateLimitBackoffs (t + 1) = 20 / ((t : ℚ) + 1) :: rateLimitBackoffs t := by
  simp [rateLimitBackoffs, List.range_succ]

theorem apiQueryAux_all_rate_limited (responses : Nat → ApiPayload)
    (hmsg : ∀ k, (responses k).message = some rateLimitMsg) :
    ∀ (t attempt : Nat) (sleeps : List ℚ),
      apiQueryAux responses t attempt sleeps =
        (sleeps ++ rateLimitBackoffs t,
         apiQueryFinish (responses (attempt + t))) := by
  intro t
  induction t with
  | zero =>
      intro attempt sleeps
      simp [apiQueryAux, rateLimitBackoffs]
  | succ t ih =>
      intro attempt sleeps
      rw [apiQueryAux]
      rw [if_pos (hmsg attempt), ih (attempt + 1) _, rateLimitBackoffs_succ]
      rw [List.append_assoc]
      simp only [List.singleton_append]
      rw [Nat.add_assoc, Nat.add_comm 1 t]

/-- C2 counterexample: under permanent rate limiting the engine does
perform exactly 10 backoff sleeps of 20 / remaining_tries seconds, but
these wait times are NOT strictly decreasing: they grow from 2 seconds up
to 20 seconds as the tries counter shrinks. -/
theorem C2_backoffs_not_decreasing_counterexample :
    (apiQuery allRateLimited).1 =
      [2, 20/9, 20/8, 20/7, 20/6, 20/5, 20/4, 20/3, 10, 20] ∧
    ¬ List.Chain' (fun a b : ℚ => a > b) (apiQuery allRateLimited).1 := by
  have hlist : (apiQuery allRateLimited).1 =
      [2, 20/9, 20/8, 20/7, 20/6, 20/5, 20/4, 20/3, 10, 20] := by
    rw [show (apiQuery allRateLimited).1 =
        ([] ++ rateLimitBackoffs 10 : List ℚ) from
      congrArg Prod.fst
        (apiQueryAux_all_rate_limited allRateLimited (fun _ => rfl) 10 0 [])]
    norm_num [rateLimitBackoffs, List.range_succ]
  refine ⟨hlist, ?_⟩
  intro h
  rw [hlist] at h
  have h2 := List.chain'_cons.mp h
  have hnot : ¬ ((2 : ℚ) > 20/9) := by norm_num
  exact hnot h2.1

/-- C2 amended: on a rate-limit message in every response, _api_query
performs exactly 10 retries, each preceded by a backoff sleep of
20 / remaining_tries seconds; the waits are strictly INCREASING
(2, 20/9, ..., 10, 20 seconds) as the tries counter is consumed, and after
the bound is exhausted the engine stops retrying and surfaces the result
of the normal handling of the eleventh response. -/
theorem C2_retry_backoff_amended (responses : Nat → ApiPayload)
    (hmsg : ∀ k, (responses k).message = some rateLimitMsg) :
    apiQuery responses =
      ([2, 20/9, 20/8, 20/7, 20/6, 20/5, 20/4, 20/3, 10, 20],
       apiQueryFinish (responses 10)) ∧
    List.Chain' (fun a b : ℚ => a < b)
      [2, 20/9, 20/8, 20/7, 20/6, 20/5, 20/4, 20/3, 10, 20] := by
  constructor
  · rw [show apiQuery responses =
        ([] ++ rateLimitBackoffs 10, apiQueryFinish (responses (0 + 10))) from
      apiQueryAux_all_rate_limited responses hmsg 10 0 []]
    norm_num [rateLimitBackoffs, List.range_succ]
  · norm_num

/-- Witness for C2 amended at the concrete always-rate-limited oracle. -/
theorem C2_retry_backoff_amended_witness :
    apiQuery allRateLimited =
      ([2, 20/9, 20/8, 20/7, 20/6, 20/5, 20/4, 20/3, 10, 20],
       apiQueryFinish (allRateLimited 10)) ∧
    List.Chain' (fun a b : ℚ => a < b)
      [2, 20/9, 20/8, 20/7, 20/6, 20/5, 20/4, 20/3, 10, 20] :=
  C2_retry_backoff_amended allRateLimited (fun _ => rfl)

/-- Embeds _adjust_to_cryptocompare_price_incosistencies, with the two
recursive PriceHistorian resolutions of the legs against USD supplied as
the arguments fromAssetUsd and toAssetUsd: form the implied cross rate,
compare the relative difference against 0.1 and return the cross rate
when it is at least 0.1, the original price otherwise. -/
def adjustToCryptocomparePriceIncosistencies
    (price fromAssetUsd toAssetUsd : ℚ) : ℚ :=
  let usdInvertConversion := fromAssetUsd / toAssetUsd
  let absDiff := |usdInvertConversion - price|
  let relativeDifference := absDiff / max price usdInvertConversion
  if relativeDifference ≥ 1/10 then usdInvertConversion else price

/-- C7: the consistency adjuster replaces the computed price with the
implied cross rate fromAssetUsd / toAssetUsd exactly when the relative
difference, i.e. the absolute difference over the larger of the two
values, is at least 10 percent (stated multiplied out: ten times the
absolute difference at least the maximum), and returns the original
price unchanged otherwise. -/
theorem C7_consistency_adjuster (price fromAssetUsd toAssetUsd : ℚ)
    (hpos : 0 < max price (fromAssetUsd / toAssetUsd)) :
    adjustToCryptocomparePriceIncosistencies price fromAssetUsd toAssetUsd =
      if 10 * |fromAssetUsd / toAssetUsd - price| ≥
          max price (fromAssetUsd / toAssetUsd)
      then fromAssetUsd / toAssetUsd else price := by
  unfold adjustToCryptocomparePriceIncosistencies
  have hiff : (|fromAssetUsd / toAssetUsd - price| /
        max price (fromAssetUsd / toAssetUsd) ≥ (1 : ℚ)/10) ↔
      (10 * |fromAssetUsd / toAssetUsd - price| ≥
        max price (fromAssetUsd / toAssetUsd)) := by
    rw [ge_iff_le, le_div_iff₀ hpos, ge_iff_le]
    constructor
    · intro h
      linarith
    · intro h
      linarith
  by_cases h : 10 * |fromAssetUsd / toAssetUsd - price| ≥
      max price (fromAssetUsd / toAssetUsd)
  · rw [if_pos (hiff.mpr h), if_pos h]
  · rw [if_neg (fun hh => h (hiff.mp hh)), if_neg h]

/-- Witness for C7 at the spec's concrete instances: computed price 100
against cross rate 92 (8 percent difference) is retained, and against
cross rate 85 (15 percent difference) is replaced. -/
theorem C7_consistency_adjuster_witness :
    (0 < max (100 : ℚ) (92 / 1)) ∧
    adjustToCryptocomparePriceIncosistencies 100 92 1 =
      (if 10 * |(92 : ℚ) / 1 - 100| ≥ max (100 : ℚ) (92 / 1)
       then (92 : ℚ) / 1 else 100) ∧
    adjustToCryptocomparePriceIncosistencies 100 92 1 = 100 ∧
    adjustToCryptocomparePriceIncosistencies 100 85 1 = 85 := by
  have h92 : adjustToCryptocomparePriceIncosistencies 100 92 1 = 100 := by
    rw [C7_consistency_adjuster 100 92 1 (by norm_num)]
    rw [if_neg]
    rw [abs_of_nonpos (by norm_num), max_eq_left (by norm_num)]
    norm_num
  have h85 : adjustToCryptocomparePriceIncosistencies 100 85 1 = 85 := by
    rw [C7_consistency_adjuster 100 85 1 (by norm_num)]
    rw [if_pos]
    · norm_num
    · rw [abs_of_nonpos (by norm_num), max_eq_left (by norm_num)]
      norm_num
  exact ⟨by norm_num, C7_consistency_adjuster 100 92 1 (by norm_num), h92, h85⟩

/-- Embeds CRYPTOCOMPARE_SPECIAL_CASES_MAPPING with assets modelled by
their identifier strings (A_WETH, A_USDT, A_DAI, A_COMP expand to their
identifiers). -/
def cryptocompareSpecialCasesMapping : List (String × String) :=
  [("TLN", "WETH"), ("BLY", "USDT"), ("cDAI", "DAI"), ("cCOMP", "COMP"),
   ("cBAT", "BAT"), ("cREP", "REP"), ("cSAI", "SAI"), ("cUSDC", "USDC"),
   ("cUSDT", "USDT"), ("cWBTC", "WBTC"), ("cUNI", "UNI"), ("cZRX", "ZRX"),
   ("ADADOWN", "USDT"), ("ADAUP", "USDT"), ("BNBDOWN", "USDT"),
   ("BNBUP", "USDT"), ("BTCDOWN", "USDT"), ("BTCUP", "USDT"),
   ("ETHDOWN", "USDT"), ("ETHUP", "USDT"), ("EOSDOWN", "USDT"),
   ("EOSUP", "USDT"), ("DOTDOWN", "USDT"), ("DOTUP", "USDT"),
   ("LTCDOWN", "USDT"), ("LTCUP", "USDT"), ("TRXDOWN", "USDT"),
   ("TRXUP", "USDT"), ("XRPDOWN", "USDT"), ("XRPUP", "USDT"),
   ("DEXT", "USDT"), ("DOS", "USDT"), ("GEEQ", "USDT"),
   ("LINKDOWN", "USDT"), ("LINKUP", "USDT"), ("XTZDOWN", "USDT"),
   ("XTZUP", "USDT"), ("STAKE", "USDT"), ("MCB", "USDT"), ("TRB", "USDT"),
   ("YFI", "USDT"), ("YAM", "USDT"), ("DEC-2", "USDT"), ("ORN", "USDT"),
   ("PERX", "USDT"), ("PRQ", "USDT"), ("RING", "USDT"), ("SBREE", "USDT"),
   ("YFII", "USDT"), ("BZRX", "USDT"), ("CREAM", "USDT"), ("ADEL", "USDT"),
   ("ANK", "USDT"), ("CORN", "USDT"), ("SAL", "USDT"), ("CRT", "USDT"),
   ("FSW", "USDT"), ("JFI", "USDT"), ("PEARL", "USDT"), ("TAI", "USDT"),
   ("YFL", "USDT"), ("TRUMPWIN", "USDT"), ("TRUMPLOSE", "USDT"),
   ("KLV", "USDT"), ("KRT", "KRW"), ("RVC", "USDT"), ("SDT", "USDT"),
   ("CHI", "USDT"), ("BAKE", "BNB"), ("BURGER", "BNB"), ("CAKE", "BNB"),
   ("BREE", "USDT"), ("GHST", "USDT"), ("MEXP", "USDT"), ("POLS", "USDT"),
   ("RARI", "USDT"), ("VALUE", "USDT"), ("$BASED", "WETH"), ("DPI", "WETH"),
   ("JRT", "USDT"), ("PICKLE", "USDT"), ("FILDOWN", "USDT"),
   ("FILUP", "USDT"), ("YFIDOWN", "USDT"), ("YFIUP", "USDT"),
   ("BOT", "USDT")]

/-- Lookup into the special cases mapping (dict access; none is the
KeyError case). -/
def specialCasesLookup (asset : String) : Option String :=
  cryptocompareSpecialCasesMapping.lookup asset

/-- Membership test, embedding CRYPTOCOMPARE_SPECIAL_CASES (the keys of
the mapping). -/
def isSpecialCase (asset : String) : Bool :=
  (specialCasesLookup asset).isSome

/-- Routing outcome of a query endpoint with respect to special-case
handling: direct remote query, synthesis through an intermediate asset,
or the KeyError raised by _special_case_handling when it indexes
CRYPTOCOMPARE_SPECIAL_CASES_MAPPING at a from asset that is not in it. -/
inductive SpecialRoute
  | direct
  | viaIntermediate (intermediate : String)
  | keyError
deriving DecidableEq

/-- Embeds the special-case dispatch shared by query_endpoint_histohour,
query_endpoint_price and query_endpoint_pricehistorical: when either side
is a special-case asset and the call is not already handling a special
case, the method delegates to _special_case_handling, which always reads
the intermediate asset from the mapping at the FROM asset
(intermediate_asset = CRYPTOCOMPARE_SPECIAL_CASES_MAPPING[from_asset]). -/
def specialCaseRoute (fromAsset toAsset : String)
    (handlingSpecialCase : Bool) : SpecialRoute :=
  if (isSpecialCase fromAsset || isSpecialCase toAsset)
      && !handlingSpecialCase then
    match specialCasesLookup fromAsset with
    | some intermediate => .viaIntermediate intermediate
    | none => .keyError
  else
    .direct

/-- C3: a pair whose only special-case asset is the to side enters
special-case handling but crashes: for from BTC (not special) and to cDAI
(special, mapped to DAI) the dispatch reaches the mapping access at the
from asset and raises KeyError instead of resolving through the to-side
mapping; when both sides are special the from mapping is used; and a pair
with only the from side special resolves through its mapping. -/
theorem C3_to_side_special_case_key_error :
    specialCaseRoute "BTC" "cDAI" false = .keyError ∧
    specialCasesLookup "cDAI" = some "DAI" ∧
    specialCaseRoute "cDAI" "cUSDT" false = .viaIntermediate "DAI" ∧
    specialCaseRoute "cDAI" "USD" false = .viaIntermediate "DAI" := by
  decide

/-- Embeds the HistoHourAssetData NamedTuple. -/
structure HistoHourAssetData where
  timestamp : Int
  usd_price : ℚ
deriving DecidableEq

/-- Embeds CRYPTOCOMPARE_SPECIAL_HISTOHOUR_CASES: COMP with the
known-good USD close price 202.93 at timestamp 1592632800. -/
def cryptocompareSpecialHistohourCases : List (String × HistoHourAssetData) :=
  [("COMP", { timestamp := 1592632800, usd_price := 20293/100 })]

/-- Lookup into the special histohour cases table. -/
def histohourCaseLookup (asset : String) : Option HistoHourAssetData :=
  cryptocompareSpecialHistohourCases.lookup asset

theorem histohourCaseLookup_eq_some (asset : String)
    (ad : HistoHourAssetData) (h : histohourCaseLookup asset = some ad) :
    asset = "COMP" ∧
    ad = { timestamp := 1592632800, usd_price := 20293/100 } := by
  unfold histohourCaseLookup cryptocompareSpecialHistohourCases at h
  rw [List.lookup] at h
  cases hbeq : (asset == "COMP") with
  | false =>
      rw [hbeq] at h
      simp [List.lookup] at h
  | true =>
      rw [hbeq] at h
      have ha : asset = "COMP" := by simpa using hbeq
      simp only [Option.some.injEq] at h
      exact ⟨ha, h.symm⟩

/-- Embeds _check_and_get_special_histohour_price: price starts at zero;
when one side is USD and the other side is a special histohour case, the
table entry of the non-USD side is read (dict indexing: none is the
KeyError case, unreachable under the guard) and, when the queried
timestamp is at or before the entry timestamp, the price becomes the
entry USD price, inverted when the override asset is the to side. -/
def checkAndGetSpecialHistohourPrice (fromAsset toAsset : String)
    (timestamp : Int) : Option ℚ :=
  if ((histohourCaseLookup fromAsset).isSome ∧ toAsset = "USD") ∨
      (fromAsset = "USD" ∧ (histohourCaseLookup toAsset).isSome) then
    match (if toAsset = "USD" then histohourCaseLookup fromAsset
           else histohourCaseLookup toAsset) with
    | none => none
    | some assetData =>
      some (if timestamp ≤ assetData.timestamp then
              (if toAsset = "USD" then assetData.usd_price
               else 1 / assetData.usd_price)
            else 0)
  else
    some 0

/-- The opening step of query_historical_price: it first consults
_check_and_get_special_histohour_price and returns that price directly
when it is nonzero, before any call to get_historical_data (so before any
remote query or cache access); a zero price proceeds to the normal
resolution path. -/
inductive HistoricalPriceFront
  | overridePrice (price : ℚ)
  | proceedToHistoricalData
  | keyError
deriving DecidableEq

/-- Embeds the override short-circuit at the top of
query_historical_price. -/
def queryHistoricalPriceStart (fromAsset toAsset : String)
    (timestamp : Int) : HistoricalPriceFront :=
  match checkAndGetSpecialHistohourPrice fromAsset toAsset timestamp with
  | none => .keyError
  | some p => if p ≠ 0 then .overridePrice p else .proceedToHistoricalData

/-- C8: when one side of the pair is USD, the other side has a registered
pre-reference histohour override and the queried timestamp is at or before
the override timestamp, query_historical_price returns the override USD
price directly, inverted when the override asset is the to side, before
any remote call or cache access; otherwise the table contributes price
zero and resolution proceeds normally, both when the pair triggers no
override case at all and when a qualifying pair is queried at a timestamp
after the override timestamp. -/
theorem C8_override_short_circuit :
    (∀ (fromAsset toAsset : String) (timestamp : Int)
       (ad : HistoHourAssetData),
       ((histohourCaseLookup fromAsset = some ad ∧ toAsset = "USD") ∨
        (fromAsset = "USD" ∧ histohourCaseLookup toAsset = some ad)) →
       timestamp ≤ ad.timestamp →
       queryHistoricalPriceStart fromAsset toAsset timestamp =
         .overridePrice (if toAsset = "USD" then ad.usd_price
                         else 1 / ad.usd_price)) ∧
    (∀ (fromAsset toAsset : String) (timestamp : Int),
       ¬ (((histohourCaseLookup fromAsset).isSome ∧ toAsset = "USD") ∨
          (fromAsset = "USD" ∧ (histohourCaseLookup toAsset).isSome)) →
       checkAndGetSpecialHistohourPrice fromAsset toAsset timestamp =
           some 0 ∧
       queryHistoricalPriceStart fromAsset toAsset timestamp =
         .proceedToHistoricalData) ∧
    (∀ (fromAsset toAsset : String) (timestamp : Int)
       (ad : HistoHourAssetData),
       ((histohourCaseLookup fromAsset = some ad ∧ toAsset = "USD") ∨
        (fromAsset = "USD" ∧ histohourCaseLookup toAsset = some ad)) →
       ad.timestamp < timestamp →
       checkAndGetSpecialHistohourPrice fromAsset toAsset timestamp =
           some 0 ∧
       queryHistoricalPriceStart fromAsset toAsset timestamp =
         .proceedToHistoricalData) := by
  refine ⟨?_, ?_, ?_⟩
  · intro fromAsset toAsset timestamp ad hcase hts
    rcases hcase with ⟨hlook, ht⟩ | ⟨hf, hlook⟩
    · subst ht
      have hguard : ((histohourCaseLookup fromAsset).isSome ∧
          ("USD" : String) = "USD") ∨
          (fromAsset = "USD" ∧ (histohourCaseLookup "USD").isSome) :=
        Or.inl ⟨by rw [hlook]; rfl, rfl⟩
      have had := histohourCaseLookup_eq_some fromAsset ad hlook
      have hnzv : ad.usd_price ≠ 0 := by
        rw [had.2]
        norm_num
      unfold queryHistoricalPriceStart checkAndGetSpecialHistohourPrice
      rw [if_pos hguard]
      simp [hlook, hts, hnzv]
    · have hcomp := histohourCaseLookup_eq_some toAsset ad hlook
      have htne : ¬ (toAsset = "USD") := by
        rw [hcomp.1]
        decide
      have hguard : ((histohourCaseLookup fromAsset).isSome ∧
          toAsset = "USD") ∨
          (fromAsset = "USD" ∧ (histohourCaseLookup toAsset).isSome) :=
        Or.inr ⟨hf, by rw [hlook]; rfl⟩
      have hnzv : ad.usd_price ≠ 0 := by
        rw [hcomp.2]
        norm_num
      unfold queryHistoricalPriceStart checkAndGetSpecialHistohourPrice
      rw [if_pos hguard]
      simp [hlook, hts, htne, hnzv]
  · intro fromAsset toAsset timestamp hguard
    unfold queryHistoricalPriceStart checkAndGetSpecialHistohourPrice
    rw [if_neg hguard]
    refine ⟨rfl, ?_⟩
    simp
  · intro fromAsset toAsset timestamp ad hcase hlate
    have hnle : ¬ (timestamp ≤ ad.timestamp) := not_le.mpr hlate
    rcases hcase with ⟨hlook, ht⟩ | ⟨hf, hlook⟩
    · subst ht
      have hguard : ((histohourCaseLookup fromAsset).isSome ∧
          ("USD" : String) = "USD") ∨
          (fromAsset = "USD" ∧ (histohourCaseLookup "USD").isSome) :=
        Or.inl ⟨by rw [hlook]; rfl, rfl⟩
      unfold queryHistoricalPriceStart checkAndGetSpecialHistohourPrice
      rw [if_pos hguard]
      simp [hlook, hnle]
    · have hcomp := histohourCaseLookup_eq_some toAsset ad hlook
      have htne : ¬ (toAsset = "USD") := by
        rw [hcomp.1]
        decide
      have hguard : ((histohourCaseLookup fromAsset).isSome ∧
          toAsset = "USD") ∨
          (fromAsset = "USD" ∧ (histohourCaseLookup toAsset).isSome) :=
        Or.inr ⟨hf, by rw [hlook]; rfl⟩
      unfold queryHistoricalPriceStart checkAndGetSpecialHistohourPrice
      rw [if_pos hguard]
      simp [hlook, htne, hnle]

/-- Witness for C8: the COMP to USD pair at timestamp 0 (at or before the
override timestamp) short-circuits to the override price 202.93, the
inverted USD to COMP pair short-circuits to 100 / 20293, and the same
qualifying pair one second after the override timestamp gets price zero
from the table and proceeds to normal resolution. -/
theorem C8_override_short_circuit_witness :
    queryHistoricalPriceStart "COMP" "USD" 0 =
      .overridePrice (if ("USD" : String) = "USD" then (20293/100 : ℚ)
                      else 1 / (20293/100)) ∧
    queryHistoricalPriceStart "USD" "COMP" 0 =
      .overridePrice (if ("COMP" : String) = "USD" then (20293/100 : ℚ)
                      else 1 / (20293/100)) ∧
    checkAndGetSpecialHistohourPrice "COMP" "USD" 1592632801 = some 0 ∧
    queryHistoricalPriceStart "COMP" "USD" 1592632801 =
      .proceedToHistoricalData :=
  ⟨C8_override_short_circuit.1 "COMP" "USD" 0
      { timestamp := 1592632800, usd_price := 20293/100 }
      (Or.inl ⟨rfl, rfl⟩) (by norm_num),
   C8_override_short_circuit.1 "USD" "COMP" 0
      { timestamp := 1592632800, usd_price := 20293/100 }
      (Or.inr ⟨rfl, rfl⟩) (by norm_num),
   (C8_override_short_circuit.2.2 "COMP" "USD" 1592632801
      { timestamp := 1592632800, usd_price := 20293/100 }
      (Or.inl ⟨rfl, rfl⟩) (by norm_num)).1,
   (C8_override_short_circuit.2.2 "COMP" "USD" 1592632801
      { timestamp := 1592632800, usd_price := 20293/100 }
      (Or.inl ⟨rfl, rfl⟩) (by norm_num)).2⟩

/-- Embeds _multiply_str_nums applied to two dict accesses of quote
fields: each argument is the Option-valued field (none = missing key, a
KeyError in Python), and the product is exact decimal multiplication. -/
def multiplyStrNums (a b : Option ℚ) : Option ℚ := do
  pure ((← a) * (← b))

/-- Embeds one element of the histohour branch of _special_case_handling:
the synthesized entry takes time, volumefrom, volumeto, conversionType
and conversionSymbol from the first leg entry and multiplies high, low,
open and close of the two legs; none embeds the KeyError raised when a
required quote field is missing. -/
def synthHistohourEntry (entry entry2 : CCHistEntry) : Option CCHistEntry := do
  let h ← multiplyStrNums entry.high entry2.high
  let l ← multiplyStrNums entry.low entry2.low
  let o ← multiplyStrNums entry.openPrice entry2.openPrice
  let c ← multiplyStrNums entry.close entry2.close
  pure { time := entry.time, high := some h, low := some l,
         openPrice := some o, close := some c,
         volumefrom := entry.volumefrom, volumeto := entry.volumeto,
         conversionType := entry.conversionType,
         conversionSymbol := entry.conversionSymbol }

/-- Embeds the histohour data loop of _special_case_handling: iterates the
first leg with enumerate and indexes the second leg at the same position
(none embeds the IndexError when the second leg is shorter, or a KeyError
from a missing quote field). -/
def synthHistohourData :
    List CCHistEntry → List CCHistEntry → Option (List CCHistEntry)
  | [], _ => some []
  | _ :: _, [] => none
  | e1 :: r1, e2 :: r2 => do
    let e ← synthHistohourEntry e1 e2
    let rest ← synthHistohourData r1 r2
    pure (e :: rest)

/-- Embeds the query_endpoint_price branch of _special_case_handling: the
two leg dict reads use .get with default string 0, so a missing quote
value is treated as 0 and the two values are multiplied. -/
def synthPriceCase (result1Value result2Value : Option ℚ) : ℚ :=
  result1Value.getD 0 * result2Value.getD 0

/-- Embeds the query_endpoint_pricehistorical branch of
_special_case_handling: plain multiplication of the two leg prices. -/
def synthPricehistoricalCase (result1 result2 : ℚ) : ℚ :=
  result1 * result2

/-- A first-leg entry whose high quote is missing. -/
def missingHighEntry : CCHistEntry :=
  { time := 0, high := none, low := some 1, openPrice := some 1,
    close := some 1, volumefrom := 0, volumeto := 0,
    conversionType := "direct", conversionSymbol := "" }

/-- A fully populated leg entry. -/
def fullEntry : CCHistEntry :=
  { time := 0, high := some 3, low := some 2, openPrice := some 1,
    close := some 4, volumefrom := 5, volumeto := 6,
    conversionType := "direct", conversionSymbol := "" }

/-- C4 counterexample: in the hourly-series synthesis a missing quote
value is NOT treated as 0: a leg entry without the high key makes the
synthesis fail (KeyError, embedded as none) instead of producing an entry
with a zero quote. -/
theorem C4_missing_hourly_quote_fails_counterexample :
    synthHistohourData [missingHighEntry] [fullEntry] = none := by
  decide

theorem synthHistohourEntry_fields (e1 e2 e : CCHistEntry)
    (h : synthHistohourEntry e1 e2 = some e) :
    e.time = e1.time ∧
    e.high = multiplyStrNums e1.high e2.high ∧
    e.low = multiplyStrNums e1.low e2.low ∧
    e.openPrice = multiplyStrNums e1.openPrice e2.openPrice ∧
    e.close = multiplyStrNums e1.close e2.close ∧
    e.volumefrom = e1.volumefrom ∧ e.volumeto = e1.volumeto ∧
    e.conversionType = e1.conversionType ∧
    e.conversionSymbol = e1.conversionSymbol := by
  unfold synthHistohourEntry at h
  cases hh : multiplyStrNums e1.high e2.high with
  | none => rw [hh] at h; simp [Option.bind] at h
  | some vh =>
    rw [hh] at h
    cases hl : multiplyStrNums e1.low e2.low with
    | none => rw [hl] at h; simp [Option.bind] at h
    | some vl =>
      rw [hl] at h
      cases ho : multiplyStrNums e1.openPrice e2.openPrice with
      | none => rw [ho] at h; simp [Option.bind] at h
      | some vo =>
        rw [ho] at h
        cases hc : multiplyStrNums e1.close e2.close with
        | none => rw [hc] at h; simp [Option.bind] at h
        | some vc =>
          rw [hc] at h
          simp [Option.bind] at h
          subst h
          simp [hh, hl, ho, hc]

/-- C4 amended: in the special-case hourly synthesis each result entry
carries the element-wise product of high, low, open and close of the two
legs at the same index, and passes volumefrom, volumeto, conversionType
and conversionSymbol through from the first leg unchanged; the scalar
current-price and daily-historical cases multiply the two leg prices,
and the treat-missing-as-0 default applies only to the scalar
current-price case (a missing quote in an hourly leg entry makes the
synthesis fail instead). -/
theorem C4_synthesis_amended :
    (∀ (l1 l2 l : List CCHistEntry), synthHistohourData l1 l2 = some l →
      ∀ (i : Nat) (e1 e2 e : CCHistEntry),
        l1.get? i = some e1 → l2.get? i = some e2 → l.get? i = some e →
        e.time = e1.time ∧
        e.high = multiplyStrNums e1.high e2.high ∧
        e.low = multiplyStrNums e1.low e2.low ∧
        e.openPrice = multiplyStrNums e1.openPrice e2.openPrice ∧
        e.close = multiplyStrNums e1.close e2.close ∧
        e.volumefrom = e1.volumefrom ∧ e.volumeto = e1.volumeto ∧
        e.conversionType = e1.conversionType ∧
        e.conversionSymbol = e1.conversionSymbol) ∧
    (∀ a b : ℚ, synthPriceCase (some a) (some b) = a * b) ∧
    (∀ b : Option ℚ, synthPriceCase none b = 0) ∧
    (∀ a b : ℚ, synthPricehistoricalCase a b = a * b) := by
  refine ⟨?_, ?_, ?_, ?_⟩
  · intro l1
    induction l1 with
    | nil =>
        intro l2 l hs i e1 e2 e h1 h2 he
        simp at h1
    | cons x r1 ih =>
        intro l2 l hs i e1 e2 e h1 h2 he
        cases l2 with
        | nil => simp [synthHistohourData] at hs
        | cons y r2 =>
          unfold synthHistohourData at hs
          cases hx : synthHistohourEntry x y with
          | none => rw [hx] at hs; simp [Option.bind] at hs
          | some ex =>
            rw [hx] at hs
            cases hr : synthHistohourData r1 r2 with
            | none => rw [hr] at hs; simp [Option.bind] at hs
            | some rest =>
              rw [hr] at hs
              simp [Option.bind] at hs
              subst hs
              cases i with
              | zero =>
                  simp only [List.get?_cons_zero, Option.some.injEq]
                    at h1 h2 he
                  subst h1
                  subst h2
                  subst he
                  exact synthHistohourEntry_fields x y ex hx
              | succ j =>
                  simp only [List.get?_cons_succ] at h1 h2 he
                  exact ih r2 rest hr j e1 e2 e h1 h2 he
  · intro a b
    rfl
  · intro b
    simp [synthPriceCase]
  · intro a b
    rfl

/-- A fully populated second-leg entry with metadata differing from the
first leg. -/
def secondLegEntry : CCHistEntry :=
  { time := 0, high := some 7, low := some 11, openPrice := some 13,
    close := some 17, volumefrom := 19, volumeto := 23,
    conversionType := "multiply", conversionSymbol := "X" }

/-- The entry synthesized from fullEntry and secondLegEntry. -/
def productEntry : CCHistEntry :=
  { time := 0, high := some 21, low := some 22, openPrice := some 13,
    close := some 68, volumefrom := 5, volumeto := 6,
    conversionType := "direct", conversionSymbol := "" }

/-- Witness for C4 at concrete one-entry legs: the synthesized entry is
the field-wise product with first-leg passthrough, and the scalar legs
2 and 3 synthesize to 6. -/
theorem C4_synthesis_amended_witness :
    (productEntry.time = fullEntry.time ∧
     productEntry.high = multiplyStrNums fullEntry.high secondLegEntry.high ∧
     productEntry.low = multiplyStrNums fullEntry.low secondLegEntry.low ∧
     productEntry.openPrice =
       multiplyStrNums fullEntry.openPrice secondLegEntry.openPrice ∧
     productEntry.close =
       multiplyStrNums fullEntry.close secondLegEntry.close ∧
     productEntry.volumefrom = fullEntry.volumefrom ∧
     productEntry.volumeto = fullEntry.volumeto ∧
     productEntry.conversionType = fullEntry.conversionType ∧
     productEntry.conversionSymbol = fullEntry.conversionSymbol) ∧
    synthPriceCase (some 2) (some 3) = 2 * 3 :=
  ⟨C4_synthesis_amended.1 [fullEntry] [secondLegEntry] [productEntry]
      (by norm_num [synthHistohourData, synthHistohourEntry, multiplyStrNums,
        fullEntry, secondLegEntry, productEntry, Option.bind])
      0 fullEntry secondLegEntry productEntry rfl rfl rfl,
   C4_synthesis_amended.2.1 2 3⟩

/-- A histohour remote response, restricted to the keys the backfill loop
reads: TimeFrom, TimeTo and Data. -/
structure HistohourResponse where
  timeFrom : Int
  timeTo : Int
  data : List CCHistEntry
deriving DecidableEq

/-- Result of slicing leading duplicate entries off a response whose
declared TimeFrom drifted back from the previous window end: the sliced
Data, the RemoteError for a mismatched slicing reference point, or the
IndexError for an out-of-range slice probe. -/
inductive SliceResult
  | ok (d : List CCHistEntry)
  | remoteError
  | indexError
deriving DecidableEq

/-- Embeds the TimeFrom drift handling of the get_historical_data loop:
when the response declares an earlier start than the previous window end
and the difference is at least one hour, the entry at offset diff / 3600
must carry the previous end timestamp (RemoteError otherwise) and all
earlier entries are sliced off; a sub-hour drift is tolerated. -/
def sliceLeading (prEndDate : Int) (resp : HistohourResponse) : SliceResult :=
  if prEndDate = resp.timeFrom then .ok resp.data
  else
    let diff := prEndDate - resp.timeFrom
    if diff ≥ 3600 then
      match resp.data.get? (diff / 3600).toNat with
      | none => .indexError
      | some e =>
        if e.time ≠ prEndDate then .remoteError
        else .ok (resp.data.drop (diff / 3600).toNat)
    else .ok resp.data

/-- Embeds the TimeTo drift handling: when the window end is before now
and the response declares a different end, a drift of at least one hour
is a RemoteError and a smaller drift adopts the declared end as the new
cursor. -/
def adjustEndDate (nowTs endDate : Int) (resp : HistohourResponse) :
    Option Int :=
  if endDate < nowTs ∧ resp.timeTo ≠ endDate then
    if resp.timeTo - endDate ≥ 3600 then none else some resp.timeTo
  else some endDate

/-- Embeds the duplicate-boundary handling: when the accumulated history
is nonempty and its last entry has the same timestamp as the first new
entry, the first new entry is dropped.  Reading the first new entry of an
empty Data list raises IndexError (none); with an empty history the
Python conjunction short-circuits and nothing is read. -/
def dropDuplicateFirst (history newData : List CCHistEntry) :
    Option (List CCHistEntry) :=
  match history.getLast?, newData with
  | none, _ => some newData
  | some _, [] => none
  | some lastE, firstE :: rest =>
    if lastE.time = firstE.time then some rest else some (firstE :: rest)

/-- Terminal outcome of the backfill loop. -/
inductive BackfillOutcome
  | ok (history : List CCHistEntry) (endDate : Int)
  | remoteError
  | indexError
deriving DecidableEq

/-- Embeds the paging loop of get_historical_data over a response oracle
indexed by the requested window end toTs (the limit is always 2000).
The fuel bounds the number of iterations (the source loop has no bound of
its own); none means the fuel ran out before the loop broke. -/
def getHistoricalDataLoop (query : Int → HistohourResponse) (nowTs : Int) :
    Nat → Int → List CCHistEntry → Option BackfillOutcome
  | 0, _, _ => none
  | fuel + 1, prEndDate, history =>
    let endDate := prEndDate + 2000 * 3600
    let resp := query endDate
    match sliceLeading prEndDate resp with
    | .remoteError => some .remoteError
    | .indexError => some .indexError
    | .ok data1 =>
      match adjustEndDate nowTs endDate resp with
      | none => some .remoteError
      | some endDate2 =>
        match dropDuplicateFirst history data1 with
        | none => some .indexError
        | some data2 =>
          let history2 := history ++ data2
          if endDate2 ≥ nowTs then some (.ok history2 endDate2)
          else getHistoricalDataLoop query nowTs fuel endDate2 history2

/-- What a fresh (non-cached) run of get_historical_data produces after
the loop: the document persisted to the pair cache file and the
PriceHistoryData object stored in the in-memory price_history map. -/
structure FreshFetchResult where
  fileDoc : PriceHistoryDoc
  memory : PriceHistoryData
deriving DecidableEq

/-- Terminal outcome of a fresh get_historical_data run. -/
inductive FreshOutcome
  | ok (r : FreshFetchResult)
  | remoteError
  | indexError
  | keyError
deriving DecidableEq

/-- Embeds the fresh-backfill path of get_historical_data: the cursor
starts at the earlier of historical_data_start and the probe timestamp,
the loop assembles calculated_history, the hourly sanity check runs over
it (its error is a RemoteError), the file is written via
write_history_data_in_file with start_ts = historical_data_start and
end_ts = now_ts, while the in-memory object is built from the same
entries with start_time = historical_data_start but end_time = end_date,
the final loop cursor. -/
def getHistoricalDataFresh (query : Int → HistohourResponse) (nowTs : Int)
    (timestamp historicalDataStart : Int) (fuel : Nat) :
    Option FreshOutcome :=
  let endDateInit :=
    if historicalDataStart ≤ timestamp then historicalDataStart
    else timestamp
  match getHistoricalDataLoop query nowTs fuel endDateInit [] with
  | none => none
  | some .remoteError => some .remoteError
  | some .indexError => some .indexError
  | some (.ok history endDate) =>
    match checkHourlyDataSanity history with
    | some _ => some .remoteError
    | none =>
      match dictHistoryToData
          { data := history, start_time := historicalDataStart,
            end_time := endDate } with
      | none => some .keyError
      | some mem =>
        some (.ok { fileDoc :=
                      writeHistoryDataInFile history historicalDataStart
                        nowTs,
                    memory := mem })

/-- A response oracle for a single-window run: whatever window end is
requested, the response declares TimeFrom 0, TimeTo equal to the request
and two hourly entries at times 0 and 3600. -/
def c9Query : Int → HistohourResponse :=
  fun toTs =>
    { timeFrom := 0, timeTo := toTs,
      data := [mkCCHistEntry 0, mkCCHistEntry 3600] }

/-- C9 counterexample: a successful backfill run (probe timestamp 0,
historical_data_start 0, now_ts 3600) stores an in-memory series whose
end_time is the final loop cursor 7200000, while the persisted file
carries end_time now_ts = 3600; reloading the persisted document
therefore does not reproduce the in-memory series object. -/
theorem C9_roundtrip_counterexample :
    getHistoricalDataFresh c9Query 3600 0 0 1 =
      some (.ok
        { fileDoc := { data := [mkCCHistEntry 0, mkCCHistEntry 3600],
                       start_time := 0, end_time := 3600 },
          memory := { data := [{ time := 0, low := 1, high := 2 },
                               { time := 3600, low := 1, high := 2 }],
                      start_time := 0, end_time := 7200000 } }) ∧
    dictHistoryToData
        { data := [mkCCHistEntry 0, mkCCHistEntry 3600],
          start_time := 0, end_time := 3600 } ≠
      some { data := [{ time := 0, low := 1, high := 2 },
                      { time := 3600, low := 1, high := 2 }],
             start_time := 0, end_time := 7200000 } := by
  constructor
  · rfl
  · intro h
    have h2 := Option.some.injEq .. ▸ h
    simp [dictHistoryToData, dictHistoryToEntries, mkCCHistEntry,
      Option.bind] at h2

/-- C9 amended: persisting then reloading reproduces the entries and the
start_time of the in-memory series exactly, but the reloaded end_time is
the now_ts captured at persist time, which coincides with the in-memory
end_time (the final window cursor end_date) only when the two happen to
be equal. -/
theorem C9_roundtrip_amended (history : List CCHistEntry)
    (startTs nowTs endDate : Int) (mem reloaded : PriceHistoryData)
    (hm : dictHistoryToData
        { data := history, start_time := startTs, end_time := endDate } =
      some mem)
    (hr : dictHistoryToData
        (writeHistoryDataInFile history startTs nowTs) = some reloaded) :
    reloaded.data = mem.data ∧
    reloaded.start_time = mem.start_time ∧
    reloaded.end_time = nowTs := by
  unfold writeHistoryDataInFile at hr
  unfold dictHistoryToData at hm hr
  cases he : dictHistoryToEntries history with
  | none =>
      rw [he] at hm
      simp [Option.bind] at hm
  | some entries =>
      rw [he] at hm hr
      simp [Option.bind] at hm hr
      rw [← hm, ← hr]
      exact ⟨rfl, rfl, rfl⟩

/-- Witness for C9 amended at a concrete one-entry history. -/
theorem C9_roundtrip_amended_witness :
    ({ data := [{ time := 0, low := 1, high := 2 }],
       start_time := 5, end_time := 40 } : PriceHistoryData).data =
      ({ data := [{ time := 0, low := 1, high := 2 }],
         start_time := 5, end_time := 99 } : PriceHistoryData).data ∧
    ({ data := [{ time := 0, low := 1, high := 2 }],
       start_time := 5, end_time := 40 } : PriceHistoryData).start_time =
      ({ data := [{ time := 0, low := 1, high := 2 }],
         start_time := 5, end_time := 99 } : PriceHistoryData).start_time ∧
    ({ data := [{ time := 0, low := 1, high := 2 }],
       start_time := 5, end_time := 40 } : PriceHistoryData).end_time =
      (40 : Int) :=
  C9_roundtrip_amended [mkCCHistEntry 0] 5 40 99
    { data := [{ time := 0, low := 1, high := 2 }],
      start_time := 5, end_time := 99 }
    { data := [{ time := 0, low := 1, high := 2 }],
      start_time := 5, end_time := 40 }
    rfl rfl

end Cryptocompare
